import Mathlib

/-!
# Egg timer (`egg_timer/code/07_progressbar/main.go`)

A shallow embedding of the `Timer` state machine and of the frame handler of
`draw`, followed by the properties of the timer that the specification states.

Durations are Go `time.Duration` values, i.e. signed 64-bit nanosecond counts.
They are represented by `Int`, and the one arithmetic operation of the program
(`t.elapsed += dt`) wraps around as Go's `int64` addition does.
-/

namespace EggTimer

/-! ## Durations -/

/-- Smallest `int64` value, `-2^63`. -/
def minInt64 : Int := -9223372036854775808

/-- Largest `int64` value, `2^63 - 1` (Go's `maxDuration`). -/
def maxInt64 : Int := 9223372036854775807

/-- Two's complement reduction of an integer to the `int64` range. -/
def wrap64 (x : Int) : Int :=
  (x + 9223372036854775808) % 18446744073709551616 - 9223372036854775808

/-- The integer is an `int64` value. -/
def InInt64 (x : Int) : Prop := minInt64 ≤ x ∧ x ≤ maxInt64

instance (x : Int) : Decidable (InInt64 x) := inferInstanceAs (Decidable (_ ∧ _))

/-- The `+` of Go on `int64` (`time.Duration`) operands. -/
def add64 (a b : Int) : Int := wrap64 (a + b)

/-- The constant `time.Second`, in nanoseconds. -/
def Second : Int := 1000000000

/-! ## The timer -/

/-- The struct `Timer`. -/
structure Timer where
  elapsed : Int
  target : Int
  running : Bool
deriving DecidableEq, Repr

/-- The constructor `NewTimer(target)`: the fields not mentioned take the zero
values of their types. -/
def NewTimer (target : Int) : Timer :=
  { elapsed := 0, target := target, running := false }

namespace Timer

/-- The method `t.IsRunning()`. -/
def IsRunning (t : Timer) : Bool := t.running

/-- The method `t.Start()`. -/
def Start (t : Timer) : Timer := { t with running := true }

/-- The method `t.Stop()`. -/
def Stop (t : Timer) : Timer := { t with running := false }

/-- The method `t.Reset()`. -/
def Reset (t : Timer) : Timer := { t with elapsed := 0, running := false }

/-- The method `t.IsFinished()`. -/
def IsFinished (t : Timer) : Bool := decide (t.elapsed ≥ t.target)

/-- The method `t.Progress()`, with the quotient taken exactly (in `ℚ`) instead
of in `float32`. Division in `ℚ` is total: a zero denominator gives `0`. -/
def Progress (t : Timer) : ℚ := (t.elapsed : ℚ) / (t.target : ℚ)

/-- The method `t.Advance(dt)`; the addition is the `int64` one. -/
def Advance (t : Timer) (dt : Int) : Timer :=
  if t.running then
    let t1 : Timer := { t with elapsed := add64 t.elapsed dt }
    if t1.elapsed ≥ t1.target then
      { t1 with elapsed := t1.target, running := false }
    else
      t1
  else
    t

end Timer

/-! ## Sequences of calls -/

/-- One call on a timer. -/
inductive Op where
  | start
  | stop
  | reset
  | advance (dt : Int)
deriving DecidableEq, Repr

/-- Effect of one call. -/
def Op.apply (t : Timer) : Op → Timer
  | .start => t.Start
  | .stop => t.Stop
  | .reset => t.Reset
  | .advance dt => t.Advance dt

/-- Effect of a sequence of calls, first call first. -/
def run (t : Timer) (ops : List Op) : Timer := ops.foldl Op.apply t

/-- The duration passed by the call, if any, is non-negative. -/
def Op.NonNeg : Op → Prop
  | .advance dt => 0 ≤ dt
  | _ => True

instance : (op : Op) → Decidable op.NonNeg
  | .start => isTrue trivial
  | .stop => isTrue trivial
  | .reset => isTrue trivial
  | .advance dt => inferInstanceAs (Decidable (0 ≤ dt))

/-- Every `Advance` of the sequence is given a non-negative duration. -/
def NonNegDts (ops : List Op) : Prop := ∀ op ∈ ops, op.NonNeg

instance (ops : List Op) : Decidable (NonNegDts ops) :=
  inferInstanceAs (Decidable (∀ op ∈ ops, op.NonNeg))

/-- The call, made on `t`, executes no addition `t.elapsed += dt` whose exact
sum leaves the `int64` range. Only `Advance` on a running timer adds. -/
def Op.Exact (t : Timer) : Op → Prop
  | .advance dt => t.running = true → InInt64 (t.elapsed + dt)
  | _ => True

instance (t : Timer) : (op : Op) → Decidable (op.Exact t)
  | .start => isTrue trivial
  | .stop => isTrue trivial
  | .reset => isTrue trivial
  | .advance dt => inferInstanceAs (Decidable (t.running = true → InInt64 (t.elapsed + dt)))

/-- No addition `t.elapsed += dt` executed while the sequence runs from `t`
leaves the `int64` range. -/
def NoOverflow (t : Timer) : List Op → Prop
  | [] => True
  | op :: ops => op.Exact t ∧ NoOverflow (op.apply t) ops

instance NoOverflow.decidable : (t : Timer) → (ops : List Op) → Decidable (NoOverflow t ops)
  | _, [] => isTrue trivial
  | t, op :: ops =>
    @instDecidableAnd _ _ (inferInstanceAs (Decidable (op.Exact t)))
      (NoOverflow.decidable (op.apply t) ops)

/-- The behaviour of `Advance` as the specification words it, over the
integers: nothing happens unless running; otherwise the timer finishes, clamped
to the target, when `elapsed + dt` reaches the target, and else keeps running
with `elapsed + dt`. -/
def AdvanceRef (t : Timer) (dt : Int) : Timer :=
  if t.running = false then t
  else if t.elapsed + dt ≥ t.target then
    { elapsed := t.target, target := t.target, running := false }
  else
    { elapsed := t.elapsed + dt, target := t.target, running := true }

/-! ## The frame handler of `draw` -/

/-- The three buttons of the window. -/
inductive Button where
  | start
  | stop
  | reset
deriving DecidableEq, Repr

/-- The innermost layout function of `draw`: the buttons it lays out, in
order. Each `return` of the Go function ends the list. -/
def layoutButtons (t : Timer) : List Button :=
  if t.IsRunning then [Button.stop]
  else if t.IsFinished then [Button.reset]
  else [Button.start]

/-- The timer part of the `app.FrameEvent` case of `draw`: advance by the time
since the last frame, then handle the three `Clicked` tests in source order. -/
def frameTimer (t : Timer) (dt : Int) (startClicked stopClicked resetClicked : Bool) : Timer :=
  let t1 := t.Advance dt
  let t2 := if startClicked then t1.Start else t1
  let t3 := if stopClicked then t2.Stop else t2
  if resetClicked then t3.Reset else t3

/-- What the loop of `draw` carries from one frame to the next: the timer and
the buttons laid out by the previous frame (none before the first frame). -/
structure FrameState where
  timer : Timer
  shown : List Button
deriving DecidableEq, Repr

/-- State of `draw` on entering the loop. -/
def initFrame : FrameState := { timer := NewTimer (3 * Second), shown := [] }

/-- The input of one frame: the time since the previous frame and whether the
user clicked (a click can only land on a button the previous frame laid out). -/
structure FrameInput where
  dt : Int
  click : Bool
deriving DecidableEq, Repr

/-- The timer state to which the click handlers of a frame are applied. -/
def advanced (fs : FrameState) (i : FrameInput) : Timer := fs.timer.Advance i.dt

/-- Value of `startButton.Clicked(gtx)` in the frame with input `i`. -/
def startClicked (fs : FrameState) (i : FrameInput) : Bool :=
  i.click && decide (Button.start ∈ fs.shown)

/-- Value of `stopButton.Clicked(gtx)` in the frame with input `i`. -/
def stopClicked (fs : FrameState) (i : FrameInput) : Bool :=
  i.click && decide (Button.stop ∈ fs.shown)

/-- Value of `resetButton.Clicked(gtx)` in the frame with input `i`. -/
def resetClicked (fs : FrameState) (i : FrameInput) : Bool :=
  i.click && decide (Button.reset ∈ fs.shown)

/-- One frame. -/
def frameStep (fs : FrameState) (i : FrameInput) : FrameState :=
  let t := frameTimer fs.timer i.dt (startClicked fs i) (stopClicked fs i) (resetClicked fs i)
  { timer := t, shown := layoutButtons t }

/-- A sequence of frames, first frame first. -/
def runFrames (fs : FrameState) (is : List FrameInput) : FrameState := is.foldl frameStep fs

/-- Every frame of the sequence is given a non-negative duration. -/
def NonNegFrames (is : List FrameInput) : Prop := ∀ i ∈ is, 0 ≤ i.dt

instance (is : List FrameInput) : Decidable (NonNegFrames is) :=
  inferInstanceAs (Decidable (∀ i ∈ is, 0 ≤ i.dt))

/-- What the frame loop keeps true of the timer: a positive target, `elapsed`
at most the target, and strictly below it while running. -/
def TimerInv (t : Timer) : Prop :=
  0 < t.target ∧ t.elapsed ≤ t.target ∧ (t.running = true → t.elapsed < t.target)

/-- What the frame loop keeps true of its state: the timer invariant, and a
laid-out start button only for a timer that is neither running nor finished. -/
def FrameInv (fs : FrameState) : Prop :=
  TimerInv fs.timer ∧
    (Button.start ∈ fs.shown → fs.timer.running = false ∧ fs.timer.elapsed < fs.timer.target)

/-! ## Auxiliary facts -/

theorem wrap64_of_inInt64 {x : Int} (h : InInt64 x) : wrap64 x = x := by
  unfold InInt64 minInt64 maxInt64 at h
  unfold wrap64
  omega

theorem apply_target (t : Timer) (op : Op) : (op.apply t).target = t.target := by
  cases op <;> simp only [Op.apply, Timer.Start, Timer.Stop, Timer.Reset, Timer.Advance]
  split
  · split <;> rfl
  · rfl

theorem run_cons (t : Timer) (op : Op) (ops : List Op) :
    run t (op :: ops) = run (op.apply t) ops := rfl

theorem run_target (t : Timer) (ops : List Op) : (run t ops).target = t.target := by
  induction ops generalizing t with
  | nil => rfl
  | cons op ops ih => rw [run_cons, ih, apply_target]

theorem nonNegDts_take {ops : List Op} (h : NonNegDts ops) (k : Nat) :
    NonNegDts (ops.take k) :=
  fun op hop => h op (List.mem_of_mem_take hop)

/-- Whatever the duration, `Advance` never leaves a timer both running and at
or beyond its target. -/
theorem advance_not_running_finished (t : Timer) (dt : Int) :
    (t.Advance dt).running = true → (t.Advance dt).elapsed < (t.Advance dt).target := by
  simp only [Timer.Advance]
  split
  · split
    · intro h; exact absurd h (by simp)
    · rename_i hlt
      intro _
      simpa using hlt
  · rename_i hr
    intro h; exact absurd h hr

/-- The upper bound on `elapsed` is kept by every call, overflow or not. -/
theorem apply_le_target (t : Timer) (op : Op) (ht : 0 ≤ t.target)
    (h : t.elapsed ≤ t.target) : (op.apply t).elapsed ≤ t.target := by
  cases op with
  | start => exact h
  | stop => exact h
  | reset => exact ht
  | advance dt =>
    simp only [Op.apply, Timer.Advance]
    split
    · split
      · exact le_refl _
      · rename_i hlt
        simp only [ge_iff_le, not_le] at hlt
        exact le_of_lt hlt
    · exact h

theorem run_le_target (t : Timer) (ops : List Op) (ht : 0 ≤ t.target)
    (h : t.elapsed ≤ t.target) : (run t ops).elapsed ≤ t.target := by
  induction ops generalizing t with
  | nil => exact h
  | cons op ops ih =>
    rw [run_cons]
    have h1 := apply_le_target t op ht h
    rw [← apply_target t op] at h1 ht ⊢
    exact ih _ ht h1

/-- The lower bound on `elapsed` is kept by a call whose addition is exact. -/
theorem apply_nonneg (t : Timer) (op : Op) (h0 : 0 ≤ t.elapsed) (ht : 0 ≤ t.target)
    (hop : op.NonNeg) (hex : op.Exact t) : 0 ≤ (op.apply t).elapsed := by
  cases op with
  | start => exact h0
  | stop => exact h0
  | reset => exact le_refl _
  | advance dt =>
    simp only [Op.apply, Timer.Advance]
    simp only [Op.NonNeg] at hop
    simp only [Op.Exact] at hex
    split
    · rename_i hr
      rw [add64, wrap64_of_inInt64 (hex hr)]
      split
      · exact ht
      · exact add_nonneg h0 hop
    · exact h0

theorem run_nonneg (t : Timer) (ops : List Op) (h0 : 0 ≤ t.elapsed) (ht : 0 ≤ t.target)
    (hops : NonNegDts ops) (hex : NoOverflow t ops) : 0 ≤ (run t ops).elapsed := by
  induction ops generalizing t with
  | nil => exact h0
  | cons op ops ih =>
    rw [run_cons]
    obtain ⟨hex1, hex2⟩ := hex
    have hop : op.NonNeg := hops op (List.mem_cons_self _ _)
    have hrest : NonNegDts ops := fun o ho => hops o (List.mem_cons_of_mem _ ho)
    apply ih _ (apply_nonneg t op h0 ht hop hex1) _ hrest hex2
    rw [apply_target]; exact ht

theorem timerInv_advance {t : Timer} (h : TimerInv t) (dt : Int) : TimerInv (t.Advance dt) := by
  obtain ⟨hpos, hle, _⟩ := h
  have htg : (t.Advance dt).target = t.target := apply_target t (Op.advance dt)
  refine ⟨by rw [htg]; exact hpos, ?_, advance_not_running_finished t dt⟩
  rw [htg]
  exact apply_le_target t (Op.advance dt) (le_of_lt hpos) hle

theorem timerInv_stop {t : Timer} (h : TimerInv t) : TimerInv t.Stop :=
  ⟨h.1, h.2.1, fun hr => absurd hr (by simp [Timer.Stop])⟩

theorem timerInv_reset {t : Timer} (h : TimerInv t) : TimerInv t.Reset :=
  ⟨h.1, le_of_lt h.1, fun hr => absurd hr (by simp [Timer.Reset])⟩

theorem timerInv_start {t : Timer} (h : TimerInv t) (hlt : t.elapsed < t.target) :
    TimerInv t.Start :=
  ⟨h.1, h.2.1, fun _ => hlt⟩

theorem advance_of_not_running {t : Timer} (h : t.running = false) (dt : Int) :
    t.Advance dt = t := by
  simp [Timer.Advance, h]

theorem start_mem_layoutButtons {t : Timer} (h : Button.start ∈ layoutButtons t) :
    t.running = false ∧ t.elapsed < t.target := by
  unfold layoutButtons Timer.IsRunning Timer.IsFinished at h
  cases hr : t.running
  · by_cases hf : t.elapsed ≥ t.target
    · simp [hr, hf] at h
    · exact ⟨rfl, not_le.mp hf⟩
  · simp [hr] at h

theorem frameInv_init : FrameInv initFrame := by
  refine ⟨⟨by decide, by decide, by decide⟩, ?_⟩
  intro h
  exact absurd h (by decide)

theorem frameInv_step {fs : FrameState} (h : FrameInv fs) (i : FrameInput) :
    FrameInv (frameStep fs i) := by
  obtain ⟨ht, hshown⟩ := h
  refine ⟨?_, start_mem_layoutButtons⟩
  simp only [frameStep, frameTimer]
  have h1 : TimerInv (fs.timer.Advance i.dt) := timerInv_advance ht i.dt
  have h2 : TimerInv (if startClicked fs i = true then (fs.timer.Advance i.dt).Start
      else fs.timer.Advance i.dt) := by
    split
    · rename_i hc
      simp only [startClicked, Bool.and_eq_true, decide_eq_true_eq] at hc
      obtain ⟨hr, hlt⟩ := hshown hc.2
      rw [advance_of_not_running hr]
      exact timerInv_start ht hlt
    · exact h1
  have h3 : TimerInv (if stopClicked fs i = true then
      (if startClicked fs i = true then (fs.timer.Advance i.dt).Start
        else fs.timer.Advance i.dt).Stop
      else (if startClicked fs i = true then (fs.timer.Advance i.dt).Start
        else fs.timer.Advance i.dt)) := by
    split
    · exact timerInv_stop h2
    · exact h2
  split
  · exact timerInv_reset h3
  · exact h3

theorem frameInv_runFrames {fs : FrameState} (h : FrameInv fs) (is : List FrameInput) :
    FrameInv (runFrames fs is) := by
  induction is generalizing fs with
  | nil => exact h
  | cons i is ih => exact ih (frameInv_step h i)

/-! ## The claims -/

/-- C1 (as amended). For every `target > 0` and every finite sequence of
`Start`, `Stop`, `Reset` and `Advance(dt)` calls with each `dt ≥ 0`, applied to
`NewTimer(target)`, the state after every call (after the first `k` calls, for
every `k`) satisfies `elapsed ≤ target`; it also satisfies `0 ≤ elapsed` when no
addition `t.elapsed += dt` executed so far has overflowed `int64`. -/
theorem C1_elapsed_bounds (target : Int) (htarget : 0 < target) (ops : List Op)
    (hdt : NonNegDts ops) (k : Nat) :
    (run (NewTimer target) (ops.take k)).elapsed ≤ target ∧
      (NoOverflow (NewTimer target) (ops.take k) →
        0 ≤ (run (NewTimer target) (ops.take k)).elapsed) := by
  constructor
  · exact run_le_target (NewTimer target) _ (le_of_lt htarget) (le_of_lt htarget)
  · intro hex
    exact run_nonneg (NewTimer target) _ (le_refl _) (le_of_lt htarget)
      (nonNegDts_take hdt k) hex

/-- Witness of C1: the three calls `Start; Advance(1s); Advance(5s)` on a
3-second timer. -/
theorem C1_elapsed_bounds_witness :
    (0 : Int) < 3 * Second ∧
    NonNegDts [Op.start, Op.advance Second, Op.advance (5 * Second)] ∧
    (run (NewTimer (3 * Second))
        ([Op.start, Op.advance Second, Op.advance (5 * Second)].take 3)).elapsed ≤ 3 * Second ∧
    NoOverflow (NewTimer (3 * Second))
        ([Op.start, Op.advance Second, Op.advance (5 * Second)].take 3) ∧
    0 ≤ (run (NewTimer (3 * Second))
        ([Op.start, Op.advance Second, Op.advance (5 * Second)].take 3)).elapsed :=
  ⟨by decide, by decide,
    (C1_elapsed_bounds (3 * Second) (by decide)
      [Op.start, Op.advance Second, Op.advance (5 * Second)] (by decide) 3).1,
    by decide,
    (C1_elapsed_bounds (3 * Second) (by decide)
      [Op.start, Op.advance Second, Op.advance (5 * Second)] (by decide) 3).2 (by decide)⟩

/-- Counterexample to C1 as stated. On a 3-second timer, `Start; Advance(1ns);
Advance(maxDuration)` uses only non-negative durations, yet the last addition
`1 + (2^63 - 1)` wraps to `-2^63`: the timer is left running with a negative
`elapsed`. -/
theorem C1_counterexample :
    (0 : Int) < 3 * Second ∧
    NonNegDts [Op.start, Op.advance 1, Op.advance maxInt64] ∧
    InInt64 maxInt64 ∧
    run (NewTimer (3 * Second)) [Op.start, Op.advance 1, Op.advance maxInt64] =
      { elapsed := -9223372036854775808, target := 3 * Second, running := true } ∧
    ¬ (0 ≤ (run (NewTimer (3 * Second))
        [Op.start, Op.advance 1, Op.advance maxInt64]).elapsed) := by
  decide

/-- C2 (as amended). For every `target > 0` and every finite sequence of
`Start`, `Stop`, `Reset` and `Advance(dt ≥ 0)` calls applied to
`NewTimer(target)`, the state after every call has `running = false` whenever
`elapsed == target`, except after a `Start` called on a timer whose `elapsed`
already equals `target` (`Start` sets the flag without looking at `elapsed`). -/
theorem C2_finished_not_running (target : Int) (_htarget : 0 < target) (ops : List Op)
    (_hdt : NonNegDts ops) (op : Op) (_hop : op.NonNeg)
    (hstart : op = Op.start → (run (NewTimer target) ops).elapsed ≠ target) :
    (op.apply (run (NewTimer target) ops)).elapsed = target →
      (op.apply (run (NewTimer target) ops)).running = false := by
  intro helapsed
  cases op with
  | start => exact absurd helapsed (hstart rfl)
  | stop => rfl
  | reset => rfl
  | advance dt =>
    have h := advance_not_running_finished (run (NewTimer target) ops) dt
    have htg : ((run (NewTimer target) ops).Advance dt).target = target := by
      rw [show (run (NewTimer target) ops).Advance dt
        = (Op.advance dt).apply (run (NewTimer target) ops) from rfl, apply_target, run_target]
      rfl
    simp only [Op.apply] at helapsed ⊢
    rw [htg, helapsed] at h
    cases hr : ((run (NewTimer target) ops).Advance dt).running
    · rfl
    · exact absurd (h hr) (lt_irrefl _)

/-- Witness of C2: the call `Advance(5s)` after `Start; Advance(1s)` on a
3-second timer reaches the target and the timer is not running. -/
theorem C2_finished_not_running_witness :
    (0 : Int) < 3 * Second ∧
    NonNegDts [Op.start, Op.advance Second] ∧
    (Op.advance (5 * Second)).NonNeg ∧
    (Op.advance (5 * Second) = Op.start →
      (run (NewTimer (3 * Second)) [Op.start, Op.advance Second]).elapsed ≠ 3 * Second) ∧
    ((Op.advance (5 * Second)).apply
        (run (NewTimer (3 * Second)) [Op.start, Op.advance Second])).elapsed = 3 * Second ∧
    ((Op.advance (5 * Second)).apply
        (run (NewTimer (3 * Second)) [Op.start, Op.advance Second])).running = false :=
  ⟨by decide, by decide, by decide, by decide, by decide,
    C2_finished_not_running (3 * Second) (by decide) [Op.start, Op.advance Second] (by decide)
      (Op.advance (5 * Second)) (by decide) (by decide) (by decide)⟩

/-- Counterexample to C2 as stated. On a 3-second timer, after
`Start; Advance(3s); Start` the state has `elapsed == target` and
`running = true`. -/
theorem C2_counterexample :
    (0 : Int) < 3 * Second ∧
    NonNegDts [Op.start, Op.advance (3 * Second), Op.start] ∧
    run (NewTimer (3 * Second)) [Op.start, Op.advance (3 * Second), Op.start] =
      { elapsed := 3 * Second, target := 3 * Second, running := true } ∧
    ¬ ((run (NewTimer (3 * Second))
          [Op.start, Op.advance (3 * Second), Op.start]).elapsed = 3 * Second →
        (run (NewTimer (3 * Second))
          [Op.start, Op.advance (3 * Second), Op.start]).running = false) := by
  decide

/-- C3 (as amended). `Advance` equals its reference definition whenever the
addition `elapsed + dt` it executes does not overflow `int64`: for every timer
state and every `dt ≥ 0` such that `elapsed + dt` is an `int64` value if the
timer is running, `Advance(dt)` leaves the whole state unchanged when `running`
is false; when `running` is true it yields `elapsed = target`,
`running = false` if `elapsed + dt ≥ target`, and `elapsed + dt` with
`running = true` otherwise; `target` is unchanged in all cases. With
`target = 3s`: `Start; Advance(1s)` gives elapsed 1s, running, not finished;
`Start; Advance(5s)` gives elapsed 3s, not running, finished;
`Start; Advance(1s); Stop; Advance(10s)` leaves elapsed at 1s. -/
theorem C3_advance_reference (t : Timer) (dt : Int) (_hdt : 0 ≤ dt)
    (hex : t.running = true → InInt64 (t.elapsed + dt)) :
    t.Advance dt = AdvanceRef t dt ∧
    (t.Advance dt).target = t.target ∧
    (run (NewTimer (3 * Second)) [Op.start, Op.advance Second] =
        { elapsed := Second, target := 3 * Second, running := true } ∧
      (run (NewTimer (3 * Second)) [Op.start, Op.advance Second]).IsFinished = false) ∧
    (run (NewTimer (3 * Second)) [Op.start, Op.advance (5 * Second)] =
        { elapsed := 3 * Second, target := 3 * Second, running := false } ∧
      (run (NewTimer (3 * Second)) [Op.start, Op.advance (5 * Second)]).IsFinished = true) ∧
    (run (NewTimer (3 * Second))
      [Op.start, Op.advance Second, Op.stop, Op.advance (10 * Second)]).elapsed = Second := by
  refine ⟨?_, apply_target t (Op.advance dt), by decide, by decide, by decide⟩
  simp only [Timer.Advance, AdvanceRef]
  cases hr : t.running
  · simp
  · rw [add64, wrap64_of_inInt64 (hex hr)]
    simp

/-- Witness of C3: a running 3-second timer at 1s, advanced by 1s. -/
theorem C3_advance_reference_witness :
    (0 : Int) ≤ Second ∧
    InInt64 (Second + Second) ∧
    (({ elapsed := Second, target := 3 * Second, running := true } : Timer).Advance Second
      = AdvanceRef { elapsed := Second, target := 3 * Second, running := true } Second) ∧
    (({ elapsed := Second, target := 3 * Second, running := true } : Timer).Advance Second
      = { elapsed := 2 * Second, target := 3 * Second, running := true }) :=
  ⟨by decide, by decide,
    (C3_advance_reference { elapsed := Second, target := 3 * Second, running := true } Second
      (by decide) (by intro _; decide)).1,
    by decide⟩

/-- Counterexample to C3 as stated. For the running state with `elapsed = 1ns`,
`target = 3s` and `dt = maxDuration ≥ 0`, the exact sum `elapsed + dt` is at
least `target`, so the reference definition finishes the timer; the code adds in
`int64`, gets `-2^63`, and leaves the timer running with that value. -/
theorem C3_counterexample :
    (0 : Int) ≤ maxInt64 ∧ InInt64 maxInt64 ∧
    (1 : Int) + maxInt64 ≥ 3 * Second ∧
    AdvanceRef { elapsed := 1, target := 3 * Second, running := true } maxInt64 =
      { elapsed := 3 * Second, target := 3 * Second, running := false } ∧
    ({ elapsed := 1, target := 3 * Second, running := true } : Timer).Advance maxInt64 =
      { elapsed := -9223372036854775808, target := 3 * Second, running := true } ∧
    ({ elapsed := 1, target := 3 * Second, running := true } : Timer).Advance maxInt64 ≠
      AdvanceRef { elapsed := 1, target := 3 * Second, running := true } maxInt64 := by
  decide

/-- C4. For every timer state with `target > 0`, `Reset` yields `elapsed = 0`
and `running = false`, leaves `target` unchanged, and afterwards `IsRunning()`
and `IsFinished()` are both false. -/
theorem C4_reset (t : Timer) (htarget : 0 < t.target) :
    t.Reset.elapsed = 0 ∧ t.Reset.running = false ∧ t.Reset.target = t.target ∧
      t.Reset.IsRunning = false ∧ t.Reset.IsFinished = false := by
  refine ⟨rfl, rfl, rfl, rfl, ?_⟩
  simp only [Timer.IsFinished, Timer.Reset, decide_eq_false_iff_not, ge_iff_le, not_le]
  exact htarget

/-- Witness of C4 (scenario D): with `target = 3s`, `Start; Advance(3s)`
finishes the timer and `Reset` then gives elapsed 0, not running, not
finished. -/
theorem C4_reset_witness :
    (0 : Int) < (run (NewTimer (3 * Second)) [Op.start, Op.advance (3 * Second)]).target ∧
    (run (NewTimer (3 * Second)) [Op.start, Op.advance (3 * Second)]).IsFinished = true ∧
    ((run (NewTimer (3 * Second)) [Op.start, Op.advance (3 * Second)]).Reset.elapsed = 0 ∧
      (run (NewTimer (3 * Second)) [Op.start, Op.advance (3 * Second)]).Reset.running = false ∧
      (run (NewTimer (3 * Second)) [Op.start, Op.advance (3 * Second)]).Reset.target =
        (run (NewTimer (3 * Second)) [Op.start, Op.advance (3 * Second)]).target ∧
      (run (NewTimer (3 * Second)) [Op.start, Op.advance (3 * Second)]).Reset.IsRunning = false ∧
      (run (NewTimer (3 * Second)) [Op.start, Op.advance (3 * Second)]).Reset.IsFinished
        = false) :=
  ⟨by decide, by decide,
    C4_reset (run (NewTimer (3 * Second)) [Op.start, Op.advance (3 * Second)]) (by decide)⟩

/-- C5 (as amended). For every `target > 0` and every state reachable from
`NewTimer(target)` by `Start`, `Stop`, `Reset` and `Advance(dt ≥ 0)` calls,
`Progress()`, taken as the exact quotient `elapsed / target`, is at most `1`;
it is also at least `0`, hence in `[0, 1]`, when none of the additions
`t.elapsed += dt` executed on the way has overflowed `int64`; it is `0`
immediately after construction. -/
theorem C5_progress_unit_interval (target : Int) (htarget : 0 < target) (ops : List Op)
    (hdt : NonNegDts ops) :
    (run (NewTimer target) ops).Progress ≤ 1 ∧
      (NoOverflow (NewTimer target) ops → 0 ≤ (run (NewTimer target) ops).Progress) ∧
      (NewTimer target).Progress = 0 := by
  have h1 : (run (NewTimer target) ops).elapsed ≤ target :=
    run_le_target (NewTimer target) ops (le_of_lt htarget) (le_of_lt htarget)
  have htg : (run (NewTimer target) ops).target = target := run_target _ _
  have hpos : (0 : ℚ) < (target : ℚ) := by exact_mod_cast htarget
  refine ⟨?_, ?_, ?_⟩
  · rw [Timer.Progress, htg, div_le_one hpos]
    exact_mod_cast h1
  · intro hex
    have h0 : 0 ≤ (run (NewTimer target) ops).elapsed :=
      run_nonneg (NewTimer target) ops (le_refl _) (le_of_lt htarget) hdt hex
    rw [Timer.Progress, htg]
    exact div_nonneg (by exact_mod_cast h0) (le_of_lt hpos)
  · simp [Timer.Progress, NewTimer]

/-- Witness of C5: `Start; Advance(1s)` on a 3-second timer, where the progress
is one third. -/
theorem C5_progress_unit_interval_witness :
    (0 : Int) < 3 * Second ∧
    NonNegDts [Op.start, Op.advance Second] ∧
    (run (NewTimer (3 * Second)) [Op.start, Op.advance Second]).Progress ≤ 1 ∧
    NoOverflow (NewTimer (3 * Second)) [Op.start, Op.advance Second] ∧
    0 ≤ (run (NewTimer (3 * Second)) [Op.start, Op.advance Second]).Progress ∧
    (NewTimer (3 * Second)).Progress = 0 :=
  ⟨by decide, by decide,
    (C5_progress_unit_interval (3 * Second) (by decide) [Op.start, Op.advance Second]
      (by decide)).1,
    by decide,
    (C5_progress_unit_interval (3 * Second) (by decide) [Op.start, Op.advance Second]
      (by decide)).2.1 (by decide),
    (C5_progress_unit_interval (3 * Second) (by decide) [Op.start, Op.advance Second]
      (by decide)).2.2⟩

/-- Counterexample to C5 as stated. The state reached on a 3-second timer by
`Start; Advance(1ns); Advance(maxDuration)` has `elapsed = -2^63`, so its
progress, as an exact quotient, is negative: the lower bound of `[0, 1]` fails
there (the upper bound does not). -/
theorem C5_counterexample :
    (0 : Int) < 3 * Second ∧
    NonNegDts [Op.start, Op.advance 1, Op.advance maxInt64] ∧
    InInt64 maxInt64 ∧
    (run (NewTimer (3 * Second)) [Op.start, Op.advance 1, Op.advance maxInt64]).Progress
      = (-9223372036854775808 : ℚ) / 3000000000 ∧
    (run (NewTimer (3 * Second)) [Op.start, Op.advance 1, Op.advance maxInt64]).Progress
      < 0 := by
  have h : run (NewTimer (3 * Second)) [Op.start, Op.advance 1, Op.advance maxInt64] =
      { elapsed := -9223372036854775808, target := 3000000000, running := true } := by
    decide
  refine ⟨by decide, by decide, by decide, ?_, ?_⟩
  · rw [h]; norm_num [Timer.Progress]
  · rw [h]; norm_num [Timer.Progress]

/-- C6. For every timer state, the button-selection logic of the frame handler
lays out exactly one of the three buttons: "stop" if `IsRunning()` is true;
otherwise "reset" if `IsFinished()` is true; otherwise "start". In particular a
state with `running = true` and `elapsed ≥ target` shows "stop", never
"reset". -/
theorem C6_button_selection (t : Timer) :
    (layoutButtons t).length = 1 ∧
    (layoutButtons t = [Button.stop] ↔ t.IsRunning = true) ∧
    (layoutButtons t = [Button.reset] ↔ t.IsRunning = false ∧ t.IsFinished = true) ∧
    (layoutButtons t = [Button.start] ↔ t.IsRunning = false ∧ t.IsFinished = false) ∧
    (t.running = true ∧ t.elapsed ≥ t.target →
      layoutButtons t = [Button.stop] ∧ Button.reset ∉ layoutButtons t) := by
  unfold layoutButtons
  cases hr : t.IsRunning <;> cases hf : t.IsFinished <;>
    simp [Timer.IsRunning] at hr <;> simp [hr]

/-- Witness of C6: the running state with `elapsed = target = 3s`. -/
theorem C6_button_selection_witness :
    (({ elapsed := 3 * Second, target := 3 * Second, running := true } : Timer).running = true ∧
      ({ elapsed := 3 * Second, target := 3 * Second, running := true } : Timer).elapsed ≥
        ({ elapsed := 3 * Second, target := 3 * Second, running := true } : Timer).target) ∧
    (layoutButtons { elapsed := 3 * Second, target := 3 * Second, running := true }
        = [Button.stop] ∧
      Button.reset ∉
        layoutButtons { elapsed := 3 * Second, target := 3 * Second, running := true }) :=
  ⟨by decide,
    (C6_button_selection { elapsed := 3 * Second, target := 3 * Second, running := true }).2.2.2.2
      (by decide)⟩

/-- C7 (as amended). For every state reachable from `NewTimer(target)`,
`target > 0`, by calls with `dt ≥ 0`, and every call among `Start`, `Stop` and
`Advance(dt)` with `dt ≥ 0` whose addition `elapsed + dt` does not overflow
`int64`, the `elapsed` value after the call is at least the value before it; so
among such calls only `Reset` can lower `elapsed`. -/
theorem C7_elapsed_monotone (target : Int) (htarget : 0 < target) (ops : List Op)
    (_hdt : NonNegDts ops) (op : Op) (hop : op.NonNeg)
    (hex : op.Exact (run (NewTimer target) ops)) :
    (op ≠ Op.reset →
      (run (NewTimer target) ops).elapsed ≤ (op.apply (run (NewTimer target) ops)).elapsed) ∧
    ((op.apply (run (NewTimer target) ops)).elapsed < (run (NewTimer target) ops).elapsed →
      op = Op.reset) := by
  have hle : (run (NewTimer target) ops).elapsed ≤ (run (NewTimer target) ops).target := by
    rw [run_target]
    exact run_le_target (NewTimer target) ops (le_of_lt htarget) (le_of_lt htarget)
  have key : op ≠ Op.reset →
      (run (NewTimer target) ops).elapsed ≤ (op.apply (run (NewTimer target) ops)).elapsed := by
    intro hne
    cases op with
    | start => exact le_refl _
    | stop => exact le_refl _
    | reset => exact absurd rfl hne
    | advance dt =>
      simp only [Op.NonNeg] at hop
      simp only [Op.Exact] at hex
      simp only [Op.apply, Timer.Advance]
      split
      · rename_i hr
        rw [add64, wrap64_of_inInt64 (hex hr)]
        split
        · exact hle
        · exact le_add_of_nonneg_right hop
      · exact le_refl _
  refine ⟨key, ?_⟩
  intro hlt
  by_contra hne
  exact absurd (key hne) (not_le.mpr hlt)

/-- Witness of C7: `Advance(1s)` on the state reached by `Start; Advance(1s)`
on a 3-second timer. -/
theorem C7_elapsed_monotone_witness :
    (0 : Int) < 3 * Second ∧
    NonNegDts [Op.start, Op.advance Second] ∧
    (Op.advance Second).NonNeg ∧
    (Op.advance Second).Exact (run (NewTimer (3 * Second)) [Op.start, Op.advance Second]) ∧
    Op.advance Second ≠ Op.reset ∧
    (run (NewTimer (3 * Second)) [Op.start, Op.advance Second]).elapsed ≤
      ((Op.advance Second).apply
        (run (NewTimer (3 * Second)) [Op.start, Op.advance Second])).elapsed :=
  ⟨by decide, by decide, by decide, by decide, by decide,
    (C7_elapsed_monotone (3 * Second) (by decide) [Op.start, Op.advance Second] (by decide)
      (Op.advance Second) (by decide) (by decide)).1 (by decide)⟩

/-- Counterexample to C7 as stated. On a 3-second timer the state reached by
`Start; Advance(1ns)` has `elapsed = 1`; the call `Advance(maxDuration)`, with a
non-negative duration, wraps the sum to `-2^63`, which is lower. -/
theorem C7_counterexample :
    (0 : Int) < 3 * Second ∧
    NonNegDts [Op.start, Op.advance 1] ∧
    (Op.advance maxInt64).NonNeg ∧ InInt64 maxInt64 ∧
    (run (NewTimer (3 * Second)) [Op.start, Op.advance 1]).elapsed = 1 ∧
    ((Op.advance maxInt64).apply
      (run (NewTimer (3 * Second)) [Op.start, Op.advance 1])).elapsed = -9223372036854775808 ∧
    ¬ ((run (NewTimer (3 * Second)) [Op.start, Op.advance 1]).elapsed ≤
      ((Op.advance maxInt64).apply
        (run (NewTimer (3 * Second)) [Op.start, Op.advance 1])).elapsed) := by
  decide

/-- C8 (as amended). Starting a finished timer is undone by the very next
tick, provided that tick's addition does not overflow `int64`: for every state
with `elapsed == target > 0` and every `dt ≥ 0` such that `elapsed + dt` is an
`int64` value, after `Start()` followed by `Advance(dt)` the state has
`running = false` and `elapsed == target` (`IsFinished()` still true), i.e. it
is the finished, non-running state. -/
theorem C8_start_finished_undone (t : Timer) (hfin : t.elapsed = t.target)
    (_htarget : 0 < t.target) (dt : Int) (hdt : 0 ≤ dt) (hex : InInt64 (t.elapsed + dt)) :
    t.Start.Advance dt = { elapsed := t.target, target := t.target, running := false } ∧
      (t.Start.Advance dt).IsFinished = true := by
  have h : t.Start.Advance dt = { elapsed := t.target, target := t.target, running := false } := by
    simp only [Timer.Advance, Timer.Start]
    rw [add64, wrap64_of_inInt64 hex]
    have hge : t.elapsed + dt ≥ t.target := by rw [← hfin]; exact le_add_of_nonneg_right hdt
    simp [hge]
  refine ⟨h, ?_⟩
  rw [h]
  simp [Timer.IsFinished]

/-- Witness of C8: the finished 3-second timer, started again and advanced by
16ms. -/
theorem C8_start_finished_undone_witness :
    ({ elapsed := 3 * Second, target := 3 * Second, running := false } : Timer).elapsed =
      ({ elapsed := 3 * Second, target := 3 * Second, running := false } : Timer).target ∧
    (0 : Int) < 3 * Second ∧ (0 : Int) ≤ 16000000 ∧ InInt64 (3 * Second + 16000000) ∧
    (({ elapsed := 3 * Second, target := 3 * Second, running := false } : Timer).Start.Advance
        16000000 = { elapsed := 3 * Second, target := 3 * Second, running := false } ∧
      (({ elapsed := 3 * Second, target := 3 * Second, running := false } : Timer).Start.Advance
        16000000).IsFinished = true) :=
  ⟨by decide, by decide, by decide, by decide,
    C8_start_finished_undone { elapsed := 3 * Second, target := 3 * Second, running := false }
      (by decide) (by decide) 16000000 (by decide) (by decide)⟩

/-- Counterexample to C8 as stated. For the finished 3-second timer and
`dt = maxDuration ≥ 0`, `Start(); Advance(dt)` wraps `3s + (2^63 - 1)` to a
negative value below the target: the timer is left running and is no longer
finished. -/
theorem C8_counterexample :
    ({ elapsed := 3 * Second, target := 3 * Second, running := false } : Timer).elapsed =
      ({ elapsed := 3 * Second, target := 3 * Second, running := false } : Timer).target ∧
    (0 : Int) < 3 * Second ∧ (0 : Int) ≤ maxInt64 ∧ InInt64 maxInt64 ∧
    ({ elapsed := 3 * Second, target := 3 * Second, running := false } : Timer).Start.Advance
        maxInt64 = { elapsed := -9223372033854775809, target := 3 * Second, running := true } ∧
    (({ elapsed := 3 * Second, target := 3 * Second, running := false } : Timer).Start.Advance
        maxInt64).IsFinished = false := by
  decide

/-- C9. `Advance` is independent of how time is split into frames: for every
timer state with `0 ≤ elapsed ≤ target` and all `a ≥ 0`, `b ≥ 0` with
`elapsed + a + b` not overflowing `int64`, the state after
`Advance(a); Advance(b)` equals the state after the single call
`Advance(a + b)`, where the sum `a + b` does not overflow either. -/
theorem C9_advance_split (t : Timer) (h0 : 0 ≤ t.elapsed) (_h1 : t.elapsed ≤ t.target)
    (a b : Int) (ha : 0 ≤ a) (hb : 0 ≤ b) (hex : InInt64 (t.elapsed + a + b)) :
    (t.Advance a).Advance b = t.Advance (a + b) ∧
      (t.Advance a).Advance b = t.Advance (add64 a b) := by
  obtain ⟨e, tg, r⟩ := t
  simp only at h0 hex
  have hmin : minInt64 ≤ 0 := by decide
  have hab : add64 a b = a + b :=
    wrap64_of_inInt64 ⟨le_trans hmin (add_nonneg ha hb), le_trans (by linarith) hex.2⟩
  have w1 : add64 e a = e + a :=
    wrap64_of_inInt64 ⟨le_trans hmin (add_nonneg h0 ha), le_trans (by linarith) hex.2⟩
  have w2 : add64 (e + a) b = e + a + b := wrap64_of_inInt64 hex
  have w3 : add64 e (a + b) = e + a + b := by
    rw [add64, ← add_assoc]; exact wrap64_of_inInt64 hex
  rw [hab]
  refine ⟨?_, ?_⟩ <;>
  · cases r
    · simp [Timer.Advance]
    · simp only [Timer.Advance, w1, w3, if_true]
      by_cases hc : e + a ≥ tg
      · have hc2 : e + a + b ≥ tg := le_trans hc (le_add_of_nonneg_right hb)
        simp [hc, hc2]
      · simp only [hc, if_false, if_true, w2]

/-- Witness of C9: a running 3-second timer at 1s, advanced by 1.5s and then
by 2s, or by 3.5s at once. -/
theorem C9_advance_split_witness :
    (0 : Int) ≤ Second ∧ Second ≤ 3 * Second ∧ (0 : Int) ≤ 1500000000 ∧ (0 : Int) ≤ 2 * Second ∧
    InInt64 (Second + 1500000000 + 2 * Second) ∧
    ((({ elapsed := Second, target := 3 * Second, running := true } : Timer).Advance
        1500000000).Advance (2 * Second) =
      ({ elapsed := Second, target := 3 * Second, running := true } : Timer).Advance
        (1500000000 + 2 * Second) ∧
     (({ elapsed := Second, target := 3 * Second, running := true } : Timer).Advance
        1500000000).Advance (2 * Second) =
      ({ elapsed := Second, target := 3 * Second, running := true } : Timer).Advance
        (add64 1500000000 (2 * Second))) :=
  ⟨by decide, by decide, by decide, by decide, by decide,
    C9_advance_split { elapsed := Second, target := 3 * Second, running := true }
      (by decide) (by decide) 1500000000 (2 * Second) (by decide) (by decide) (by decide)⟩

/-- C10. In the frame loop started on `NewTimer(3s)`, where each frame calls
`Advance(dt)` with `dt ≥ 0`, then applies the operation of at most the one
button laid out by the previous frame, then selects the button to lay out: in
every frame, `Start` is never applied to a finished timer, the frame does
not end in a state with `running = true` and `elapsed ≥ target`, and the
"reset" button is laid out exactly when `elapsed == target`. -/
theorem C10_frame_loop (is : List FrameInput) (_his : NonNegFrames is) (i : FrameInput)
    (_hi : 0 ≤ i.dt) :
    (startClicked (runFrames initFrame is) i = true →
      (advanced (runFrames initFrame is) i).IsFinished = false) ∧
    ¬ ((frameStep (runFrames initFrame is) i).timer.running = true ∧
      (frameStep (runFrames initFrame is) i).timer.elapsed ≥
        (frameStep (runFrames initFrame is) i).timer.target) ∧
    (Button.reset ∈ (frameStep (runFrames initFrame is) i).shown ↔
      (frameStep (runFrames initFrame is) i).timer.elapsed =
        (frameStep (runFrames initFrame is) i).timer.target) := by
  have hfs : FrameInv (runFrames initFrame is) := frameInv_runFrames frameInv_init is
  have hnext : FrameInv (frameStep (runFrames initFrame is) i) := frameInv_step hfs i
  obtain ⟨⟨_, hle, hrun⟩, _⟩ := hnext
  refine ⟨?_, ?_, ?_⟩
  · intro hc
    simp only [startClicked, Bool.and_eq_true, decide_eq_true_eq] at hc
    obtain ⟨hr, hlt⟩ := hfs.2 hc.2
    simp only [advanced, advance_of_not_running hr, Timer.IsFinished, decide_eq_false_iff_not,
      ge_iff_le, not_le]
    exact hlt
  · rintro ⟨hr, hge⟩
    exact absurd (hrun hr) (not_lt.mpr hge)
  · have hshown : (frameStep (runFrames initFrame is) i).shown =
        layoutButtons (frameStep (runFrames initFrame is) i).timer := rfl
    rw [hshown]
    generalize (frameStep (runFrames initFrame is) i).timer = t at hle hrun
    unfold layoutButtons Timer.IsRunning Timer.IsFinished
    cases hr : t.running
    · by_cases hf : t.elapsed ≥ t.target
      · simp [hf, le_antisymm hle hf]
      · have hne : t.elapsed ≠ t.target := fun h => hf (le_of_eq h.symm)
        simp [hf, hne]
    · have hlt := hrun hr
      simp [ne_of_lt hlt]

/-- Witness of C10: the frame in which the start button, laid out by the first
frame, is clicked. -/
theorem C10_frame_loop_witness :
    NonNegFrames [{ dt := maxInt64, click := false }] ∧
    (0 : Int) ≤ ({ dt := 16000000, click := true } : FrameInput).dt ∧
    startClicked (runFrames initFrame [{ dt := maxInt64, click := false }])
      { dt := 16000000, click := true } = true ∧
    (advanced (runFrames initFrame [{ dt := maxInt64, click := false }])
        { dt := 16000000, click := true }).IsFinished = false ∧
    (¬ ((frameStep (runFrames initFrame [{ dt := maxInt64, click := false }])
        { dt := 16000000, click := true }).timer.running = true ∧
      (frameStep (runFrames initFrame [{ dt := maxInt64, click := false }])
        { dt := 16000000, click := true }).timer.elapsed ≥
        (frameStep (runFrames initFrame [{ dt := maxInt64, click := false }])
          { dt := 16000000, click := true }).timer.target) ∧
    (Button.reset ∈ (frameStep (runFrames initFrame [{ dt := maxInt64, click := false }])
        { dt := 16000000, click := true }).shown ↔
      (frameStep (runFrames initFrame [{ dt := maxInt64, click := false }])
        { dt := 16000000, click := true }).timer.elapsed =
        (frameStep (runFrames initFrame [{ dt := maxInt64, click := false }])
          { dt := 16000000, click := true }).timer.target)) :=
  ⟨by decide, by decide, by decide,
    (C10_frame_loop [{ dt := maxInt64, click := false }] (by decide)
      { dt := 16000000, click := true } (by decide)).1 (by decide),
    (C10_frame_loop [{ dt := maxInt64, click := false }] (by decide)
      { dt := 16000000, click := true } (by decide)).2⟩

end EggTimer
